import Mathlib

/-!
# Verification of the packy-usage fetch/cache/dispatch pipeline

Shallow embedding of the core components of the `packy_usage` package
(`core/budget_data.py`, `core/session_manager.py`, `core/api_client.py`,
`core/performance.py`) together with proofs of the specification claims.

Modelling conventions:
* Python `float` budget amounts and percentages are modelled as `ℚ`;
  every concrete value appearing in the claims is exactly representable,
  and the guarded divisions of the source are exact at those values.
* Wall-clock instants (`datetime.now()`, `time.time()`) are modelled as
  `Nat` timestamps passed explicitly to each operation; clocks are
  assumed monotone, which every theorem that needs it states as a
  `t0 ≤ t` hypothesis.
* Python exceptions are modelled by the inductive `Exc`; an operation
  that can raise returns an `Except`/`FetchOutcome` value instead.
-/

namespace PackyUsage

/-- `core/budget_data.py`, `BudgetUsage`: one usage period with its
percentage, total budget and used amount (floats modelled as `ℚ`). -/
structure BudgetUsage where
  percentage : ℚ
  total : ℚ
  used : ℚ
deriving DecidableEq, Repr

/-- `BudgetUsage.remaining`: `max(0, self.total - self.used)`. -/
def BudgetUsage.remaining (u : BudgetUsage) : ℚ :=
  max 0 (u.total - u.used)

/-- `core/budget_data.py`, `BudgetData`: daily and monthly usage plus the
`last_updated` timestamp set by `from_api_response`. -/
structure BudgetData where
  daily : BudgetUsage
  monthly : BudgetUsage
  last_updated : Option Nat := none
deriving DecidableEq, Repr

/-- The JSON body consumed by `BudgetData.from_api_response`.  Each field
is optional: `data.get(key, 0)` substitutes `0` when the key is absent.
(Upstream field names are `daily_budget_usd` etc.; a field that is
present is assumed numeric, as `float()` conversion would otherwise
raise outside the scope of any claim.) -/
structure ApiResp where
  daily_budget_usd : Option ℚ := none
  daily_spent_usd : Option ℚ := none
  monthly_budget_usd : Option ℚ := none
  monthly_spent_usd : Option ℚ := none
deriving DecidableEq, Repr

/-- `BudgetData.from_api_response`: defaults each missing field to `0`,
computes `spent / budget * 100` only when `budget > 0` (else `0`), and
stamps `last_updated` with the current time. -/
def BudgetData.from_api_response (data : ApiResp) (now : Nat) : BudgetData :=
  let daily_budget : ℚ := data.daily_budget_usd.getD 0
  let daily_spent : ℚ := data.daily_spent_usd.getD 0
  let daily_percentage : ℚ :=
    if daily_budget > 0 then daily_spent / daily_budget * 100 else 0
  let monthly_budget : ℚ := data.monthly_budget_usd.getD 0
  let monthly_spent : ℚ := data.monthly_spent_usd.getD 0
  let monthly_percentage : ℚ :=
    if monthly_budget > 0 then monthly_spent / monthly_budget * 100 else 0
  { daily := { percentage := daily_percentage
               total := daily_budget
               used := daily_spent }
    monthly := { percentage := monthly_percentage
                 total := monthly_budget
                 used := monthly_spent }
    last_updated := some now }

/-- `core/session_manager.py`: the `SessionManager` data cache.
`_cache` maps a cache key to `(data, storedAt)` (a Python dict modelled
as a function into `Option`); `_cache_ttl` is the fixed time-to-live
(30 seconds in the source). -/
structure SessionCache (α : Type) where
  cache : String → Option (α × Nat)
  ttl : Nat := 30

/-- `SessionManager.get_cached_data`: if the key is present and
`now - storedAt < ttl`, return the data unchanged; if present but
expired, delete the entry and return `None`; if absent, return `None`.
Returns the (possibly evicted) cache alongside the result. -/
def get_cached_data {α : Type} (c : SessionCache α) (cache_key : String)
    (now : Nat) : Option α × SessionCache α :=
  match c.cache cache_key with
  | none => (none, c)
  | some (data, timestamp) =>
    if now - timestamp < c.ttl then
      (some data, c)
    else
      (none, { c with cache := fun k => if k = cache_key then none else c.cache k })

/-- `SessionManager._cleanup_cache`: delete every entry whose age
`now - storedAt` has reached the TTL. -/
def cleanup_cache {α : Type} (c : SessionCache α) (now : Nat) : SessionCache α :=
  { c with cache := fun k =>
      match c.cache k with
      | none => none
      | some (data, timestamp) =>
        if now - timestamp ≥ c.ttl then none else some (data, timestamp) }

/-- `SessionManager.set_cached_data`: store `(data, now)` under the key
(overwriting any prior entry), then run `_cleanup_cache`. -/
def set_cached_data {α : Type} (c : SessionCache α) (cache_key : String)
    (data : α) (now : Nat) : SessionCache α :=
  cleanup_cache
    { c with cache := fun k => if k = cache_key then some (data, now) else c.cache k }
    now

/-- `SessionManager.clear_cache`: `self._cache.clear()`. -/
def clear_cache {α : Type} (c : SessionCache α) : SessionCache α :=
  { c with cache := fun _ => none }

/-- The empty cache with the source's 30-second TTL. -/
def emptyCache (α : Type) : SessionCache α := { cache := fun _ => none }

/-- The Python exception classes that `core/api_client.py` can raise or
observe, by kind.  `reqTimeout`, `reqConnectionError` and
`reqRequestException` are the `requests.exceptions` transport errors
raised by `session.get`; `authError`, `apiError`, `networkError` are the
repository's own classes from `utils/exceptions.py` (`AuthError` is a
subclass of `ApiError`); `runtimeError` is the built-in `RuntimeError`. -/
inductive Exc where
  | reqTimeout
  | reqConnectionError
  | reqRequestException
  | authError
  | apiError
  | networkError
  | runtimeError
deriving DecidableEq, Repr

/-- What the transport does for one request: deliver a response with a
status code and a body (`none` = the body is not parsable JSON), or
raise one of the `requests` transport exceptions. -/
inductive NetResult where
  | response (status : Nat) (body : Option ApiResp)
  | timeout
  | connectionError
  | requestException
deriving DecidableEq, Repr

/-- The outcome visible to a caller of `_sync_fetch_budget_data`: a
returned value (possibly `None`) or a raised exception. -/
inductive FetchOutcome where
  | returned (data : Option BudgetData)
  | raised (e : Exc)
deriving DecidableEq, Repr

/-- `true` iff the fetch outcome was returned rather than raised. -/
def FetchOutcome.isReturned : FetchOutcome → Bool
  | .returned _ => true
  | .raised _ => false

/-- The 8-hex-character truncated MD5 digest used in
`ApiClient._get_cache_key`.  No claim depends on digest values or
collisions, so the digest is modelled as an injective placeholder (the
identity). -/
def md5Prefix8 (s : String) : String := s

/-- `ApiClient._get_cache_key`:
`f"budget_data_{endpoint_hash}_{token_hash}"`. -/
def get_cache_key (endpoint token : String) : String :=
  "budget_data_" ++ md5Prefix8 endpoint ++ "_" ++ md5Prefix8 token

/-- The mutable state shared across fetches: the stored credential
(`TokenManager`, `none` = absent) and the `SessionManager` data cache. -/
structure FetchState where
  token : Option String
  cache : SessionCache BudgetData

/-- The `try` body of `ApiClient._sync_fetch_budget_data`, step by step:
resolve the token (absent ⇒ return `None`); consult the TTL cache
(hit ⇒ return it); otherwise issue the request (the rate-limiter sleep
only delays and is elided).  A transport failure surfaces as the
corresponding `requests` exception; HTTP 401/403 deletes the stored
token, clears the whole cache and raises `AuthError`; any other
non-`ok` status (`response.ok` ⟺ status < 400) raises `ApiError`; an
unparsable body raises `ApiError`; otherwise the parsed record is
cached and returned. -/
def sync_fetch_try (endpoint : String) (st : FetchState) (net : NetResult)
    (now : Nat) : Except Exc (Option BudgetData) × FetchState :=
  match st.token with
  | none => (.ok none, st)
  | some token =>
    let cache_key := get_cache_key endpoint token
    let hit := get_cached_data st.cache cache_key now
    let st := { st with cache := hit.2 }
    match hit.1 with
    | some cached => (.ok (some cached), st)
    | none =>
      match net with
      | .timeout => (.error .reqTimeout, st)
      | .connectionError => (.error .reqConnectionError, st)
      | .requestException => (.error .reqRequestException, st)
      | .response status body =>
        if status = 401 ∨ status = 403 then
          (.error .authError, { token := none, cache := clear_cache st.cache })
        else if ¬ status < 400 then
          (.error .apiError, st)
        else
          match body with
          | none => (.error .apiError, st)
          | some data =>
            let budget_data := BudgetData.from_api_response data now
            (.ok (some budget_data),
             { st with cache := set_cached_data st.cache cache_key budget_data now })

/-- `ApiClient._sync_fetch_budget_data`: the `try` body above wrapped in
its `except` chain, in source order — `requests.exceptions.Timeout`,
`ConnectionError` and `RequestException` are re-raised as
`NetworkError`; every other exception (the `AuthError` and `ApiError`),
raised inside the `try` suite included falls through to
`except Exception` and is re-raised as `ApiError("未知错误: ...")`. -/
def sync_fetch (endpoint : String) (st : FetchState) (net : NetResult)
    (now : Nat) : FetchOutcome × FetchState :=
  let (r, st') := sync_fetch_try endpoint st net now
  match r with
  | .ok v => (.returned v, st')
  | .error .reqTimeout => (.raised .networkError, st')
  | .error .reqConnectionError => (.raised .networkError, st')
  | .error .reqRequestException => (.raised .networkError, st')
  | .error _ => (.raised .apiError, st')

/-- `core/performance.py`, `BatchUpdateManager._process_loop`,
specialised to a rapid burst: all burst items are already in the queue
when the loop collects.  Each iteration collects items until
`len(batch) < max_batch_size` fails (for a rapid burst the 0.5 s window
deadline is never the binding constraint, since `queue.get` on a
non-empty queue returns immediately), keeps only the last item of the
collected batch, and invokes the consumer callback once with it.
`process_all max_batch_size items` returns the successive payloads
passed to the consumer, in order.  The source always runs with
`max_batch_size ≥ 1` (10 by default, 5 in the `PerformanceOptimizer`
instance); the `max_batch_size - 1` pattern below makes `0` behave like
`1`. -/
def process_all {α : Type} (max_batch_size : Nat) : List α → List α
  | [] => []
  | x :: xs =>
    (x :: xs.take (max_batch_size - 1)).getLast (List.cons_ne_nil x _) ::
      process_all max_batch_size (xs.drop (max_batch_size - 1))
termination_by items => items.length
decreasing_by
  simp only [List.length_drop, List.length_cons]
  omega

/-- Python `int()` applied to a (finite) numeric percentage: truncation
toward zero, i.e. the floor for non-negative values and the ceiling for
negative ones.  It agrees with `⌊·⌋` on non-negative values but not on
negative ones: `int(-0.5) = 0` while `⌊-0.5⌋ = -1`. -/
def pyInt (q : ℚ) : Int := if q < 0 then ⌈q⌉ else ⌊q⌋

/-- `IconCache.get_icon`'s cache key,
`f"{status}_{int(percentage)}"`.  Modelled as the pair
`(status, int(percentage))`: the decimal rendering of an `Int` is
injective and never contains `'_'`, so equality of the formatted
strings coincides with equality of the pairs. -/
def icon_cache_key (status : String) (percentage : ℚ) : String × Int :=
  (status, pyInt percentage)

/-- `core/performance.py`, `IconCache`.  The two lock-step dicts
`_cache : key ↦ icon` and `_access_times : key ↦ last access` are
modelled as one association list `entries : key ↦ (icon, lastAccess)`.
Icon instances are identified by a render tag: the `n`-th invocation of
the renderer (`creator_func` / `_create_default_icon`) produces the
fresh instance `n`, and `renders` counts those invocations.  `ttl` is
`_cache_ttl` in seconds (`timedelta(minutes=10)`). -/
structure IconCacheSt where
  entries : List ((String × Int) × Nat × Nat) := []
  renders : Nat := 0
  max_cache_size : Nat := 100
  ttl : Nat := 600

/-- `IconCache._cleanup_cache`: drop entries whose age strictly exceeds
the TTL; if the cache is still at capacity, drop the oldest quartile by
last-access time. -/
def icon_cleanup (st : IconCacheSt) (now : Nat) : IconCacheSt :=
  let kept := st.entries.filter (fun e => !(now - e.2.2 > st.ttl : Bool))
  if kept.length ≥ st.max_cache_size then
    let sorted := kept.mergeSort (fun a b => a.2.2 ≤ b.2.2)
    let keys_to_remove := (sorted.take (kept.length / 4)).map (·.1)
    { st with entries := kept.filter (fun e => !keys_to_remove.contains e.1) }
  else
    { st with entries := kept }

/-- The hit path's access-time refresh,
`self._access_times[cache_key] = datetime.now()`: rebind the key's last
access to `now`, leaving the icon and all other keys unchanged. -/
def touchEntries (es : List ((String × Int) × Nat × Nat))
    (key : String × Int) (now : Nat) : List ((String × Int) × Nat × Nat) :=
  es.map (fun e => if e.1 = key then (e.1, e.2.1, now) else e)

/-- Python dict assignment on the paired dicts: replace any existing
entry for `key` and bind it to `(icon, now)`. -/
def insertEntry (es : List ((String × Int) × Nat × Nat))
    (key : String × Int) (icon now : Nat) : List ((String × Int) × Nat × Nat) :=
  es.filter (fun e => e.1 != key) ++ [(key, icon, now)]

/-- `IconCache._add_to_cache`: cleanup first if at capacity, then store
the icon and its access time. -/
def icon_add_to_cache (st : IconCacheSt) (key : String × Int) (icon now : Nat) :
    IconCacheSt :=
  let st := if st.entries.length ≥ st.max_cache_size then icon_cleanup st now else st
  { st with entries := insertEntry st.entries key icon now }

/-- `IconCache.get_icon`: on a hit, refresh the key's access time and
return the cached instance (no TTL check on this path); on a miss,
invoke the renderer once (fresh tag `st.renders`) and add the result to
the cache. -/
def get_icon (st : IconCacheSt) (status : String) (percentage : ℚ)
    (now : Nat) : Nat × IconCacheSt :=
  let cache_key := icon_cache_key status percentage
  match List.lookup cache_key st.entries with
  | some (icon, _) =>
    (icon, { st with entries := touchEntries st.entries cache_key now })
  | none =>
    let icon := st.renders
    let st := { st with renders := st.renders + 1 }
    (icon, icon_add_to_cache st cache_key icon now)

/-- The freshly initialised `IconCache` (empty, zero renders). -/
def emptyIconCache : IconCacheSt := {}

/-- `core/performance.py`, `ManagedThreadPool`: the shutdown flag and
the set of submitted future handles (handles modelled by task ids). -/
structure ManagedThreadPool where
  shutdownFlag : Bool := false
  futures : List Nat := []
deriving DecidableEq, Repr

/-- `ManagedThreadPool.submit`: after shutdown, raise
`RuntimeError("线程池已关闭")` without enqueuing; otherwise submit to the
executor, track the future, and return it. -/
def ManagedThreadPool.submit (p : ManagedThreadPool) (task : Nat) :
    Except Exc Nat × ManagedThreadPool :=
  if p.shutdownFlag then
    (.error .runtimeError, p)
  else
    (.ok task, { p with futures := p.futures ++ [task] })

/-- `ManagedThreadPool.shutdown`: set the flag, then shut the executor
down (joining workers if `wait`; the join itself has no effect on the
pool state visible to `submit`). -/
def ManagedThreadPool.shutdown (p : ManagedThreadPool) (_wait : Bool) :
    ManagedThreadPool :=
  { p with shutdownFlag := true }

/-- Program counter of one thread executing
`SessionManager.get_sync_session` / `get_async_session`.
`get_sync_session` runs its whole body under `self._session_lock`:
a thread starts at `acquire`, then — holding the lock — performs the
`if self._sync_session is None` test (`check`) and, if needed, the
construction and assignment (`create`).  `get_async_session` first
performs the unguarded `if self._async_session is None or closed` read
(`precheck`, the first half of the double-checked locking) and only
then proceeds to `acquire`/`check`/`create` under `self._async_lock`.
(`closed` is never true during first use, the scenario of the claim.) -/
inductive SessPc where
  | precheck
  | acquire
  | check
  | create
  | done
deriving DecidableEq, Repr

/-- One caller: its program counter and, once finished, the session
handle it received. -/
structure SessThread where
  pc : SessPc
  result : Option Nat := none
deriving DecidableEq, Repr

/-- The shared state: the lazily constructed session handle (the `k`-th
construction yields handle `k`), a construction counter (the spec's
observable), the mutex (`none` = free, `some tid` = held), and the
callers. -/
structure SessState where
  session : Option Nat := none
  counter : Nat := 0
  lock : Option Nat := none
  threads : List SessThread
deriving DecidableEq, Repr

/-- One atomic small step of thread `tid`.  `precheck` reads `session`
without the lock (a hit finishes immediately with the existing handle);
`acquire` takes the mutex when free, else stalls; `check` — held lock —
re-reads `session` (a hit releases and finishes); `create` — held
lock — constructs the session, publishes it, records the handle and
releases.  A `tid` with no thread, a finished thread, or a blocked
acquire leaves the state unchanged. -/
def sessStep (st : SessState) (tid : Nat) : SessState :=
  match st.threads[tid]? with
  | none => st
  | some th =>
    match th.pc with
    | .precheck =>
      match st.session with
      | some h =>
        { st with threads := st.threads.set tid { pc := .done, result := some h } }
      | none =>
        { st with threads := st.threads.set tid { th with pc := .acquire } }
    | .acquire =>
      if st.lock = none then
        let ts := st.threads.set tid { th with pc := .check }
        { st with lock := some tid, threads := ts }
      else
        st
    | .check =>
      if st.lock = some tid then
        match st.session with
        | some h =>
          let ts := st.threads.set tid { pc := .done, result := some h }
          { st with lock := none, threads := ts }
        | none =>
          { st with threads := st.threads.set tid { th with pc := .create } }
      else
        st
    | .create =>
      if st.lock = some tid then
        let ts := st.threads.set tid { pc := .done, result := some st.counter }
        { st with session := some st.counter, counter := st.counter + 1, lock := none, threads := ts }
      else
        st
    | .done => st

/-- Run an arbitrary interleaving: the scheduler picks which thread
steps next. -/
def sessRun (st : SessState) (sched : List Nat) : SessState :=
  sched.foldl sessStep st

/-- `n` concurrent first callers, none started: `precheck = true` for
`get_async_session`'s double-checked program, `false` for
`get_sync_session`'s fully locked program. -/
def sessInit (precheck : Bool) (n : Nat) : SessState :=
  { threads :=
      List.replicate n { pc := if precheck then SessPc.precheck else SessPc.acquire } }

/-- The single-flight invariant: a thread inside the critical section
holds the lock; a thread about to construct saw `session = none` under
the lock; the session is constructed at most once (`counter ≤ 1`, and
the published handle is `0`); every recorded result is the published
session; every finished thread recorded a result. -/
structure SessInv (st : SessState) : Prop where
  lockHolder : ∀ (i : Nat) (th : SessThread), st.threads[i]? = some th →
    (th.pc = SessPc.check ∨ th.pc = SessPc.create) → st.lock = some i
  createNone : ∀ (i : Nat) (th : SessThread), st.threads[i]? = some th →
    th.pc = SessPc.create → st.session = none
  sessCounter : (st.session = none ∧ st.counter = 0) ∨
    (st.session = some 0 ∧ st.counter = 1)
  resultSess : ∀ (i : Nat) (th : SessThread), st.threads[i]? = some th →
    ∀ (r : Nat), th.result = some r → st.session = some r
  doneResult : ∀ (i : Nat) (th : SessThread), st.threads[i]? = some th →
    th.pc = SessPc.done → ∃ r, th.result = some r

end PackyUsage

open PackyUsage

/-- **C9.** For every usage period — any values of `total` and `used`,
including `used > total` and negative totals — the derived remaining
budget equals `max(0, total - used)` and is non-negative. -/
theorem c9_remaining_nonneg (u : BudgetUsage) :
    u.remaining = max 0 (u.total - u.used) ∧ 0 ≤ u.remaining := by
  refine ⟨rfl, ?_⟩
  exact le_max_left 0 (u.total - u.used)

/-- **C5.** Each period's percentage equals `consumed / limit * 100` when
`limit > 0` and equals `0` when `limit ≤ 0`; the body
`{dailyLimit:100, dailySpent:80, monthlyLimit:1000, monthlySpent:300}`
yields `daily.percentage = 80` and `monthly.percentage = 30`. -/
theorem c5_percentage (data : ApiResp) (now : Nat) :
    (0 < data.daily_budget_usd.getD 0 →
      (BudgetData.from_api_response data now).daily.percentage =
        data.daily_spent_usd.getD 0 / data.daily_budget_usd.getD 0 * 100) ∧
    (data.daily_budget_usd.getD 0 ≤ 0 →
      (BudgetData.from_api_response data now).daily.percentage = 0) ∧
    (0 < data.monthly_budget_usd.getD 0 →
      (BudgetData.from_api_response data now).monthly.percentage =
        data.monthly_spent_usd.getD 0 / data.monthly_budget_usd.getD 0 * 100) ∧
    (data.monthly_budget_usd.getD 0 ≤ 0 →
      (BudgetData.from_api_response data now).monthly.percentage = 0) ∧
    (BudgetData.from_api_response
        { daily_budget_usd := some 100, daily_spent_usd := some 80
          monthly_budget_usd := some 1000, monthly_spent_usd := some 300 }
        now).daily.percentage = 80 ∧
    (BudgetData.from_api_response
        { daily_budget_usd := some 100, daily_spent_usd := some 80
          monthly_budget_usd := some 1000, monthly_spent_usd := some 300 }
        now).monthly.percentage = 30 := by
  refine ⟨?_, ?_, ?_, ?_, ?_, ?_⟩ <;>
    simp only [BudgetData.from_api_response] <;> intros <;>
    first
      | (rw [if_pos (by assumption)])
      | (rw [if_neg (by simp; linarith)])
      | norm_num

/-- **C5 witness.** The guarded-percentage theorem evaluated on a body
with a positive daily limit and a zero monthly limit. -/
theorem c5_percentage_witness :
    (BudgetData.from_api_response
        { daily_budget_usd := some 100, daily_spent_usd := some 80
          monthly_budget_usd := some 0, monthly_spent_usd := some 300 }
        0).daily.percentage = 80 / 100 * 100 ∧
    (BudgetData.from_api_response
        { daily_budget_usd := some 100, daily_spent_usd := some 80
          monthly_budget_usd := some 0, monthly_spent_usd := some 300 }
        0).monthly.percentage = 0 := by
  have h := c5_percentage
    { daily_budget_usd := some 100, daily_spent_usd := some 80
      monthly_budget_usd := some 0, monthly_spent_usd := some 300 } 0
  exact ⟨h.1 (by norm_num), h.2.2.2.1 (by norm_num)⟩

/-- **C1 counterexample.** The claim says every failure is returned as a
typed result and never thrown across the fetch boundary.  At the
concrete input (credential present, empty cache, HTTP 500 response) the
fetch outcome is a raised exception, not a returned value. -/
theorem c1_counterexample :
    (sync_fetch "https://api.packy.example"
        { token := some "tok", cache := emptyCache BudgetData }
        (NetResult.response 500 none) 0).1.isReturned = false := by
  rfl

/-- **C1 amended.** When no credential is available the fetch returns
`None` without raising (the expected, handled `NoCredential` state);
every other failure is thrown across the fetch boundary as an
exception, with this kind mapping (for any credential-present,
cache-miss invocation): each of the three `requests` transport
failures raises `NetworkError`; a 401/403 response, any other non-ok
response (`status ≥ 400`), and an ok response with an unparsable body
all raise `ApiError`.  Whatever is raised is `NetworkError` or
`ApiError`; in particular the dedicated `AuthError` never escapes,
since the trailing `except Exception` handler re-wraps it as
`ApiError`. -/
theorem c1_fetch_failure_channel (endpoint : String) (st : FetchState)
    (net : NetResult) (now : Nat) :
    (st.token = none → (sync_fetch endpoint st net now).1 = .returned none) ∧
    (∀ e, (sync_fetch endpoint st net now).1 = .raised e →
      e = Exc.networkError ∨ e = Exc.apiError) ∧
    (sync_fetch endpoint st net now).1 ≠ .raised Exc.authError ∧
    (∀ tok, st.token = some tok →
      (get_cached_data st.cache (get_cache_key endpoint tok) now).1 = none →
      ((net = .timeout ∨ net = .connectionError ∨ net = .requestException) →
        (sync_fetch endpoint st net now).1 = .raised Exc.networkError) ∧
      (∀ status body, net = .response status body →
        ((status = 401 ∨ status = 403) →
          (sync_fetch endpoint st net now).1 = .raised Exc.apiError) ∧
        (¬ status < 400 →
          (sync_fetch endpoint st net now).1 = .raised Exc.apiError) ∧
        (status < 400 → body = none →
          (sync_fetch endpoint st net now).1 = .raised Exc.apiError))) := by
  have hmain : ∀ e, (sync_fetch endpoint st net now).1 = .raised e →
      e = Exc.networkError ∨ e = Exc.apiError := by
    intro e he
    simp only [sync_fetch] at he
    split at he <;> simp at he <;>
      first
        | exact Or.inl he.symm
        | exact Or.inr he.symm
  refine ⟨fun htok => ?_, hmain, fun he => ?_, fun tok htok hmiss => ⟨?_, ?_⟩⟩
  · simp [sync_fetch, sync_fetch_try, htok]
  · rcases hmain _ he with h | h <;> exact Exc.noConfusion h
  · intro hnet
    rcases hnet with rfl | rfl | rfl <;>
      simp [sync_fetch, sync_fetch_try, htok, hmiss]
  · intro status body hnet
    subst hnet
    refine ⟨fun hstatus => ?_, fun hge => ?_, fun hlt hbody => ?_⟩
    · have hif : (status = 401 ∨ status = 403) = True := eq_true hstatus
      simp [sync_fetch, sync_fetch_try, htok, hmiss, hif]
    · by_cases h43 : status = 401 ∨ status = 403
      · have hif : (status = 401 ∨ status = 403) = True := eq_true h43
        simp [sync_fetch, sync_fetch_try, htok, hmiss, hif]
      · have hif : (status = 401 ∨ status = 403) = False := eq_false h43
        simp [sync_fetch, sync_fetch_try, htok, hmiss, hif, hge]
    · have hif : (status = 401 ∨ status = 403) = False := by
        refine eq_false ?_
        rintro (rfl | rfl) <;> omega
      simp [sync_fetch, sync_fetch_try, htok, hmiss, hif, hlt, hbody]

/-- **C1 witness.** The amended theorem evaluated at concrete states:
with no credential the call returns `None`; with a credential and an
empty cache, a timeout raises `NetworkError`, while a 500 response and
a 200 response with an unparsable body both raise `ApiError`. -/
theorem c1_fetch_failure_channel_witness :
    (sync_fetch "https://api.packy.example"
        { token := none, cache := emptyCache BudgetData }
        NetResult.timeout 0).1 = .returned none ∧
    (sync_fetch "https://api.packy.example"
        { token := some "tok", cache := emptyCache BudgetData }
        NetResult.timeout 0).1 = .raised Exc.networkError ∧
    (sync_fetch "https://api.packy.example"
        { token := some "tok", cache := emptyCache BudgetData }
        (NetResult.response 500 none) 0).1 = .raised Exc.apiError ∧
    (sync_fetch "https://api.packy.example"
        { token := some "tok", cache := emptyCache BudgetData }
        (NetResult.response 200 none) 0).1 = .raised Exc.apiError := by
  have h0 := c1_fetch_failure_channel "https://api.packy.example"
    { token := none, cache := emptyCache BudgetData } NetResult.timeout 0
  have h1 := c1_fetch_failure_channel "https://api.packy.example"
    { token := some "tok", cache := emptyCache BudgetData } NetResult.timeout 0
  have h2 := c1_fetch_failure_channel "https://api.packy.example"
    { token := some "tok", cache := emptyCache BudgetData }
    (NetResult.response 500 none) 0
  have h3 := c1_fetch_failure_channel "https://api.packy.example"
    { token := some "tok", cache := emptyCache BudgetData }
    (NetResult.response 200 none) 0
  refine ⟨h0.1 rfl, (h1.2.2.2 "tok" rfl rfl).1 (Or.inl rfl), ?_, ?_⟩
  · exact ((h2.2.2.2 "tok" rfl rfl).2 500 none rfl).2.1 (by omega)
  · exact ((h3.2.2.2 "tok" rfl rfl).2 200 none rfl).2.2 (by omega) rfl

/-- **C4 counterexample.** The claim says a 401 response makes the fetch
report failure kind `AuthRejected`.  At the concrete input the kind
that crosses the fetch boundary is `ApiError` — identical to the kind a
plain HTTP 500 remote error produces, and distinct from the dedicated
auth kind `AuthError`, which the catch-all `except Exception` handler
swallowed. -/
theorem c4_counterexample :
    (sync_fetch "https://api.packy.example"
        { token := some "tok", cache := emptyCache BudgetData }
        (NetResult.response 401 none) 0).1 = .raised Exc.apiError ∧
    (sync_fetch "https://api.packy.example"
        { token := some "tok", cache := emptyCache BudgetData }
        (NetResult.response 500 none) 0).1 = .raised Exc.apiError ∧
    Exc.apiError ≠ Exc.authError := by
  refine ⟨rfl, rfl, by decide⟩

/-- **C4 amended.** On every 401/403 response (credential present,
cache miss) the fetch deletes the stored credential and clears the
entire TTL cache — both side effects, every time; the failure crossing
the fetch boundary is a raised `ApiError` (the dedicated `AuthError` is
re-wrapped by the catch-all handler); and any subsequent fetch, the
credential now being absent, returns `None`. -/
theorem c4_auth_rejection_side_effects (endpoint : String) (st : FetchState)
    (now now2 : Nat) (net2 : NetResult) (tok : String) (status : Nat)
    (body : Option ApiResp) (htok : st.token = some tok)
    (hmiss : (get_cached_data st.cache (get_cache_key endpoint tok) now).1 = none)
    (hstatus : status = 401 ∨ status = 403) :
    (sync_fetch endpoint st (.response status body) now).2.token = none ∧
    (∀ k, (sync_fetch endpoint st (.response status body) now).2.cache.cache k = none) ∧
    (sync_fetch endpoint st (.response status body) now).1 = .raised Exc.apiError ∧
    (sync_fetch endpoint
        (sync_fetch endpoint st (.response status body) now).2 net2 now2).1 =
      .returned none := by
  have hif : (status = 401 ∨ status = 403) = True := eq_true hstatus
  have hstep :
      sync_fetch endpoint st (.response status body) now =
        (.raised Exc.apiError,
         { token := none,
           cache := clear_cache
             (get_cached_data st.cache (get_cache_key endpoint tok) now).2 }) := by
    simp only [sync_fetch, sync_fetch_try, htok, hmiss, hif, if_true]
  refine ⟨by rw [hstep], fun k => by rw [hstep]; rfl, by rw [hstep], ?_⟩
  rw [hstep]
  simp [sync_fetch, sync_fetch_try]

/-- **C4 witness.** The amended theorem evaluated on a concrete 401
response with a present credential and an empty cache. -/
theorem c4_auth_rejection_side_effects_witness :
    (sync_fetch "https://api.packy.example"
        { token := some "tok", cache := emptyCache BudgetData }
        (NetResult.response 401 none) 0).2.token = none ∧
    (sync_fetch "https://api.packy.example"
        { token := some "tok", cache := emptyCache BudgetData }
        (NetResult.response 401 none) 0).2.cache.cache
        (get_cache_key "https://api.packy.example" "tok") = none ∧
    (sync_fetch "https://api.packy.example"
        { token := some "tok", cache := emptyCache BudgetData }
        (NetResult.response 401 none) 0).1 = .raised Exc.apiError ∧
    (sync_fetch "https://api.packy.example"
        (sync_fetch "https://api.packy.example"
          { token := some "tok", cache := emptyCache BudgetData }
          (NetResult.response 401 none) 0).2
        (NetResult.response 200 (some {})) 1).1 = .returned none := by
  have h := c4_auth_rejection_side_effects "https://api.packy.example"
    { token := some "tok", cache := emptyCache BudgetData } 0 1
    (NetResult.response 200 (some {})) "tok" 401 none rfl rfl (Or.inl rfl)
  exact ⟨h.1, h.2.1 _, h.2.2.1, h.2.2.2⟩

/-- **C3.** Storing `v` under `k` at time `t0` (TTL `ttl > 0`, clock
monotone): a `get(k)` at `t` with `t - t0 < ttl` returns `v`; a `get(k)`
at `t` with `t - t0 ≥ ttl` returns `None` and removes the expired entry;
a later `set(k, v')` at `t1` overwrites the entry with `(v', t1)`,
restarting the expiry window at `t1`. -/
theorem c3_ttl_cache {α : Type} (c : SessionCache α) (k : String) (v : α)
    (t0 t : Nat) (_hmono : t0 ≤ t) (httl : 0 < c.ttl) :
    (t - t0 < c.ttl →
      (get_cached_data (set_cached_data c k v t0) k t).1 = some v) ∧
    (c.ttl ≤ t - t0 →
      (get_cached_data (set_cached_data c k v t0) k t).1 = none ∧
      (get_cached_data (set_cached_data c k v t0) k t).2.cache k = none) ∧
    (∀ (v' : α) (t1 : Nat),
      (set_cached_data (set_cached_data c k v t0) k v' t1).cache k = some (v', t1) ∧
      ∀ t2, t1 ≤ t2 → t2 - t1 < c.ttl →
        (get_cached_data (set_cached_data (set_cached_data c k v t0) k v' t1) k t2).1 =
          some v') := by
  have hself : (set_cached_data c k v t0).cache k = some (v, t0) := by
    simp [set_cached_data, cleanup_cache, Nat.sub_self, Nat.not_le.mpr httl]
  have hselfttl : (set_cached_data c k v t0).ttl = c.ttl := rfl
  refine ⟨fun hfresh => ?_, fun hexp => ?_, fun v' t1 => ?_⟩
  · simp [get_cached_data, hself, hselfttl, hfresh]
  · constructor
    · simp [get_cached_data, hself, hselfttl, Nat.not_lt.mpr hexp]
    · simp [get_cached_data, hself, hselfttl, Nat.not_lt.mpr hexp]
  · have hself2 :
        (set_cached_data (set_cached_data c k v t0) k v' t1).cache k = some (v', t1) := by
      simp [set_cached_data, cleanup_cache, Nat.sub_self, Nat.not_le.mpr httl]
    refine ⟨hself2, fun t2 _ hfresh2 => ?_⟩
    have httl2 : (set_cached_data (set_cached_data c k v t0) k v' t1).ttl = c.ttl := rfl
    simp [get_cached_data, hself2, httl2, hfresh2]

/-- **C3 witness.** A concrete run: store at time `5`, read fresh at
time `20`, read expired at time `35` (TTL 30), then overwrite at `40`
and read the new value fresh at `60`. -/
theorem c3_ttl_cache_witness :
    (get_cached_data (set_cached_data (emptyCache Nat) "k" 7 5) "k" 20).1 = some 7 ∧
    (get_cached_data (set_cached_data (emptyCache Nat) "k" 7 5) "k" 35).1 = none ∧
    (get_cached_data (set_cached_data (emptyCache Nat) "k" 7 5) "k" 35).2.cache "k" =
      none ∧
    (get_cached_data
        (set_cached_data (set_cached_data (emptyCache Nat) "k" 7 5) "k" 9 40)
        "k" 60).1 = some 9 := by
  have h := c3_ttl_cache (emptyCache Nat) "k" 7 5 20 (by decide) (by decide)
  have h35 := c3_ttl_cache (emptyCache Nat) "k" 7 5 35 (by decide) (by decide)
  exact ⟨h.1 (by decide), (h35.2.1 (by decide)).1, (h35.2.1 (by decide)).2,
    (h.2.2 9 40).2 60 (by decide) (by decide)⟩

/-- **C10.** Record construction is total over parsable bodies with
missing fields: each missing limit or spent field defaults to `0`, and
the corresponding period's percentage is `0`; in particular the empty
object yields the all-zero record. -/
theorem c10_missing_fields_default (data : ApiResp) (now : Nat) :
    (data.daily_budget_usd = none →
      (BudgetData.from_api_response data now).daily.total = 0 ∧
      (BudgetData.from_api_response data now).daily.percentage = 0) ∧
    (data.daily_spent_usd = none →
      (BudgetData.from_api_response data now).daily.used = 0 ∧
      (BudgetData.from_api_response data now).daily.percentage = 0) ∧
    (data.monthly_budget_usd = none →
      (BudgetData.from_api_response data now).monthly.total = 0 ∧
      (BudgetData.from_api_response data now).monthly.percentage = 0) ∧
    (data.monthly_spent_usd = none →
      (BudgetData.from_api_response data now).monthly.used = 0 ∧
      (BudgetData.from_api_response data now).monthly.percentage = 0) := by
  refine ⟨fun h => ?_, fun h => ?_, fun h => ?_, fun h => ?_⟩ <;>
    simp [BudgetData.from_api_response, h]

/-- **C10 witness.** Building a record from the empty object succeeds
with all-zero periods. -/
theorem c10_missing_fields_default_witness :
    (BudgetData.from_api_response {} 0).daily.total = 0 ∧
    (BudgetData.from_api_response {} 0).daily.percentage = 0 ∧
    (BudgetData.from_api_response {} 0).monthly.used = 0 ∧
    (BudgetData.from_api_response {} 0).monthly.percentage = 0 := by
  have h := c10_missing_fields_default {} 0
  exact ⟨(h.1 rfl).1, (h.1 rfl).2, (h.2.2.2 rfl).1, (h.2.2.2 rfl).2⟩

/-- For a nonempty drop, the last element of the drop is the last of the
whole list. -/
lemma getLast?_drop_of_ne_nil {α : Type} (l : List α) (k : Nat)
    (h : l.drop k ≠ []) : (l.drop k).getLast? = l.getLast? := by
  conv_rhs => rw [← List.take_append_drop k l]
  rw [List.getLast?_append]
  obtain ⟨y, hy⟩ : ∃ y, (l.drop k).getLast? = some y :=
    ⟨(l.drop k).getLast h, List.getLast?_eq_getLast _ h⟩
  rw [hy]
  rfl

/-- Unfolding equation for `process_all` on a nonempty queue. -/
lemma process_all_cons {α : Type} (B : Nat) (x : α) (xs : List α) :
    process_all B (x :: xs) =
      (x :: xs.take (B - 1)).getLast (List.cons_ne_nil x _) ::
        process_all B (xs.drop (B - 1)) := by
  rw [process_all]

/-- Dispatch count and final payload of `process_all`, by strong
induction on the burst length: the consumer runs `⌈N / B⌉` times and the
final run receives the last submitted item. -/
lemma process_all_spec {α : Type} (B : Nat) (hB : 1 ≤ B) :
    ∀ (n : Nat) (items : List α), items.length ≤ n → items ≠ [] →
      (process_all B items).length = (items.length + (B - 1)) / B ∧
      (process_all B items).getLast? = items.getLast? := by
  intro n
  induction n with
  | zero =>
    intro items hlen hne
    cases items with
    | nil => exact absurd rfl hne
    | cons x xs => simp at hlen
  | succ n ih =>
    intro items hlen hne
    cases items with
    | nil => exact absurd rfl hne
    | cons x xs =>
      rw [process_all_cons]
      by_cases hrest : xs.drop (B - 1) = []
      · have hxs : xs.length ≤ B - 1 := List.drop_eq_nil_iff.mp hrest
        have htake : xs.take (B - 1) = xs := List.take_of_length_le hxs
        rw [hrest, htake]
        constructor
        · show ((x :: xs).getLast _ :: process_all B []).length = _
          rw [process_all]
          show 1 = (xs.length + 1 + (B - 1)) / B
          refine (Nat.div_eq_of_lt_le ?_ ?_).symm <;> omega
        · show ((x :: xs).getLast _ :: process_all B []).getLast? = _
          rw [process_all]
          rw [List.getLast?_eq_getLast (x :: xs) (List.cons_ne_nil x xs)]
          rfl
      · have hx : B - 1 ≤ xs.length := by
          by_contra hcon
          exact hrest (List.drop_eq_nil_of_le (by omega))
        have hlen' : (xs.drop (B - 1)).length ≤ n := by
          rw [List.length_drop]
          simp only [List.length_cons] at hlen
          omega
        obtain ⟨ihlen, ihlast⟩ := ih (xs.drop (B - 1)) hlen' hrest
        constructor
        · simp only [List.length_cons, ihlen, List.length_drop]
          have h1 : xs.length - (B - 1) + (B - 1) = xs.length := by omega
          rw [h1]
          have h2 : xs.length + 1 + (B - 1) = xs.length + B := by omega
          rw [h2, Nat.add_div_right _ (by omega)]
        · have hpr : process_all B (xs.drop (B - 1)) ≠ [] := by
            obtain ⟨y, ys, hys⟩ := List.exists_cons_of_ne_nil hrest
            rw [hys, process_all_cons]
            exact List.cons_ne_nil _ _
          obtain ⟨z, zs, hz⟩ := List.exists_cons_of_ne_nil hpr
          rw [hz, List.getLast?_cons_cons, ← hz, ihlast,
            getLast?_drop_of_ne_nil _ _ hrest]
          have hxs : xs ≠ [] := by
            intro hcon
            exact hrest (by rw [hcon]; simp)
          obtain ⟨w, ws, hw⟩ := List.exists_cons_of_ne_nil hxs
          rw [hw, List.getLast?_cons_cons]

/-- **C2 counterexample.** The claim says 100 rapid `addUpdate` calls in
one batching window cause exactly one consumer invocation.  With the
source's batch-size caps (`max_batch_size = 10` by default, `5` in the
`PerformanceOptimizer` instance) a rapid burst of 100 items is split
into full batches, so the consumer runs 10 (resp. 20) times — not
once. -/
theorem c2_counterexample :
    (process_all 10 (List.range 100)).length = 10 ∧
    (process_all 5 (List.range 100)).length = 20 ∧
    (10 : Nat) ≠ 1 := by
  obtain ⟨h10, -⟩ :=
    process_all_spec 10 (by decide) 100 (List.range 100) (by simp) (by simp)
  obtain ⟨h5, -⟩ :=
    process_all_spec 5 (by decide) 100 (List.range 100) (by simp) (by simp)
  refine ⟨?_, ?_, by decide⟩
  · rw [h10]
    norm_num
  · rw [h5]
    norm_num

/-- **C2 amended.** For a rapid burst of `N ≥ 1` items with batch-size
cap `B ≥ 1`, the consumer is invoked `⌈N / B⌉` times — once per
collected batch, each invocation receiving only that batch's last item
(earlier items dropped, not merged) — and the final invocation receives
the last (`N`-th) submitted payload.  The claimed single invocation
happens exactly when `N ≤ B`; for `N = 100 > B` it does not. -/
theorem c2_batch_coalescing {α : Type} (B : Nat) (hB : 1 ≤ B)
    (items : List α) (hne : items ≠ []) :
    (process_all B items).length = (items.length + (B - 1)) / B ∧
    (process_all B items).getLast? = items.getLast? :=
  process_all_spec B hB items.length items (Nat.le_refl _) hne

/-- **C2 witness.** The amended theorem evaluated on the claim's burst:
100 items, default cap 10 — ten invocations, the last carrying item
100. -/
theorem c2_batch_coalescing_witness :
    (process_all 10 (List.range 100)).length = (100 + 9) / 10 ∧
    (process_all 10 (List.range 100)).getLast? = (List.range 100).getLast? := by
  have h := c2_batch_coalescing 10 (by decide) (List.range 100) (by decide)
  simpa using h

/-- **C7.** After `shutdown` is called on a worker pool, every
subsequent `submit` fails with the dedicated shutdown rejection
(`RuntimeError("线程池已关闭")` — the spec's `PoolShutdown` kind), leaves
the pool state (in particular the tracked futures) unchanged, and this
rejection is the only error `submit` can ever produce; every `submit`
before shutdown returns the task's future handle and enqueues it. -/
theorem c7_pool_shutdown (p : ManagedThreadPool) (wait : Bool)
    (task task' : Nat) :
    ((p.shutdown wait).submit task).1 = .error Exc.runtimeError ∧
    ((p.shutdown wait).submit task).2 = p.shutdown wait ∧
    (p.shutdownFlag = false →
      (p.submit task').1 = .ok task' ∧
      (p.submit task').2.futures = p.futures ++ [task']) ∧
    (∀ e, (p.submit task').1 = .error e → e = Exc.runtimeError) := by
  refine ⟨rfl, rfl, fun hflag => ?_, fun e he => ?_⟩
  · simp [ManagedThreadPool.submit, hflag]
  · simp only [ManagedThreadPool.submit] at he
    split at he <;> simp at he
    exact he.symm

/-- **C7 witness.** The theorem evaluated on a concrete pool: submit
before shutdown succeeds, submit after shutdown is rejected without
enqueuing. -/
theorem c7_pool_shutdown_witness :
    (({ } : ManagedThreadPool).shutdownFlag = false →
      (({ } : ManagedThreadPool).submit 7).1 = .ok 7 ∧
      (({ } : ManagedThreadPool).submit 7).2.futures = [] ++ [7]) ∧
    ((({ } : ManagedThreadPool).shutdown true).submit 5).1 =
      .error Exc.runtimeError ∧
    ((({ } : ManagedThreadPool).shutdown true).submit 5).2 =
      ({ } : ManagedThreadPool).shutdown true := by
  have h := c7_pool_shutdown { } true 5 7
  exact ⟨fun _ => h.2.2.1 rfl, h.1, h.2.1⟩

/-- A key inserted by `insertEntry` is found, bound to the new icon and
access time, whatever the prior entries were. -/
lemma lookup_insertEntry (es : List ((String × Int) × Nat × Nat))
    (key : String × Int) (icon now : Nat) :
    List.lookup key (insertEntry es key icon now) = some (icon, now) := by
  unfold insertEntry
  rw [List.lookup_append]
  have h : List.lookup key (es.filter (fun e => e.1 != key)) = none := by
    rw [List.lookup_eq_none_iff]
    intro pr hpr
    have hpred := (List.mem_filter.mp hpr).2
    simp only [bne_iff_ne] at hpred ⊢
    exact fun hkey => hpred hkey.symm
  rw [h]
  simp

/-- Refreshing the access time of `key` rebinds it to the same icon with
the new time and touches no other key. -/
lemma lookup_touch (es : List ((String × Int) × Nat × Nat))
    (key : String × Int) (now : Nat) :
    List.lookup key (touchEntries es key now) =
      (List.lookup key es).map (fun v => (v.1, now)) := by
  unfold touchEntries
  induction es with
  | nil => rfl
  | cons e tail ih =>
    obtain ⟨k, v1, v2⟩ := e
    by_cases hk : k = key
    · subst hk
      simp [List.lookup_cons]
    · have hbeq : (key == k) = false := by
        simp [Ne.symm hk]
      simp [List.lookup_cons, hk, hbeq, ih]

/-- `get_icon` on a cache hit: returns the cached instance and only
refreshes the key's access time. -/
lemma get_icon_hit {st : IconCacheSt} {s : String} {p : ℚ} {t : Nat}
    {icon acc : Nat}
    (hl : List.lookup (icon_cache_key s p) st.entries = some (icon, acc)) :
    get_icon st s p t =
      (icon, { st with entries := touchEntries st.entries (icon_cache_key s p) t }) := by
  simp only [get_icon, hl]

/-- `get_icon` on a cache miss: renders the fresh instance `st.renders`
and stores it. -/
lemma get_icon_miss {st : IconCacheSt} {s : String} {p : ℚ} {t : Nat}
    (hl : List.lookup (icon_cache_key s p) st.entries = none) :
    get_icon st s p t =
      (st.renders, icon_add_to_cache { st with renders := st.renders + 1 }
        (icon_cache_key s p) st.renders t) := by
  simp only [get_icon, hl]

/-- After `_add_to_cache`, the stored key is bound to the new icon. -/
lemma icon_add_entries_lookup (st : IconCacheSt) (key : String × Int)
    (icon now : Nat) :
    List.lookup key (icon_add_to_cache st key icon now).entries = some (icon, now) := by
  simp only [icon_add_to_cache]
  exact lookup_insertEntry _ _ _ _

/-- `_add_to_cache` never invokes the renderer. -/
lemma icon_add_renders (st : IconCacheSt) (key : String × Int)
    (icon now : Nat) :
    (icon_add_to_cache st key icon now).renders = st.renders := by
  simp only [icon_add_to_cache, icon_cleanup]
  split
  · split <;> rfl
  · rfl

/-- **C6 counterexample.** The claim keys the cache on
`(status, floor(percentage))`.  The source uses Python `int()`, which
truncates toward zero: `-0.5` and `0.5` have different floors yet share
the slot `("warning", 0)`, and two consecutive calls with those
percentages return the identical cached instance. -/
theorem c6_counterexample :
    ⌊(-1/2 : ℚ)⌋ ≠ ⌊(1/2 : ℚ)⌋ ∧
    icon_cache_key "warning" (-1/2) = icon_cache_key "warning" (1/2) ∧
    (get_icon (get_icon emptyIconCache "warning" (-1/2) 0).2
        "warning" (1/2) 0).1 =
      (get_icon emptyIconCache "warning" (-1/2) 0).1 := by
  have hkm : icon_cache_key "warning" (-1/2 : ℚ) = ("warning", 0) := by
    norm_num [icon_cache_key, pyInt]
  have hkp : icon_cache_key "warning" (1/2 : ℚ) = ("warning", 0) := by
    norm_num [icon_cache_key, pyInt]
  have h1 : get_icon emptyIconCache "warning" (-1/2 : ℚ) 0 =
      (0, { entries := [(("warning", 0), 0, 0)], renders := 1 }) := by
    simp only [get_icon, hkm, emptyIconCache]
    simp [icon_add_to_cache, insertEntry]
  have h2 : (get_icon { entries := [(("warning", 0), 0, 0)], renders := 1 }
      "warning" (1/2 : ℚ) 0).1 = 0 := by
    simp only [get_icon, hkp, List.lookup_cons_self]
  refine ⟨by norm_num, by rw [hkm, hkp], ?_⟩
  rw [h1]
  show (get_icon { entries := [(("warning", 0), 0, 0)], renders := 1 }
    "warning" (1/2 : ℚ) 0).1 = 0
  exact h2

/-- **C6 amended.** The cache key is `(status, trunc(percentage))`
(truncation toward zero, which agrees with `floor` on non-negative
percentages): for every state and every pair of percentages with the
same truncation, two consecutive `get_icon` calls return the identical
cached instance, the second call performs no render, and the pair of
calls renders at most once; percentages with different truncations hit
different cache slots; and concretely, from a fresh cache,
`get_icon("warning", 77.4)` and `get_icon("warning", 77.9)` return the
same instance while `get_icon("warning", 78.0)` returns a different
one. -/
theorem c6_icon_cache_granularity (st : IconCacheSt) (s : String)
    (p1 p2 : ℚ) (t1 t2 : Nat) :
    (pyInt p1 = pyInt p2 →
      (get_icon (get_icon st s p1 t1).2 s p2 t2).1 = (get_icon st s p1 t1).1 ∧
      (get_icon (get_icon st s p1 t1).2 s p2 t2).2.renders =
        (get_icon st s p1 t1).2.renders ∧
      (get_icon st s p1 t1).2.renders ≤ st.renders + 1) ∧
    (pyInt p1 ≠ pyInt p2 → icon_cache_key s p1 ≠ icon_cache_key s p2) ∧
    (get_icon (get_icon emptyIconCache "warning" (77.4 : ℚ) 0).2
        "warning" (77.9 : ℚ) 0).1 =
      (get_icon emptyIconCache "warning" (77.4 : ℚ) 0).1 ∧
    (get_icon (get_icon (get_icon emptyIconCache "warning" (77.4 : ℚ) 0).2
        "warning" (77.9 : ℚ) 0).2 "warning" (78.0 : ℚ) 0).1 ≠
      (get_icon emptyIconCache "warning" (77.4 : ℚ) 0).1 := by
  have hk774 : icon_cache_key "warning" (77.4 : ℚ) = ("warning", 77) := by
    norm_num [icon_cache_key, pyInt]
  have hk779 : icon_cache_key "warning" (77.9 : ℚ) = ("warning", 77) := by
    norm_num [icon_cache_key, pyInt]
  have hk780 : icon_cache_key "warning" (78.0 : ℚ) = ("warning", 78) := by
    norm_num [icon_cache_key, pyInt]
  have h1 : get_icon emptyIconCache "warning" (77.4 : ℚ) 0 =
      (0, { entries := [(("warning", 77), 0, 0)], renders := 1 }) := by
    simp only [get_icon, hk774, emptyIconCache]
    simp [icon_add_to_cache, insertEntry]
  have h2 : get_icon { entries := [(("warning", 77), 0, 0)], renders := 1 }
      "warning" (77.9 : ℚ) 0 =
      (0, { entries := [(("warning", 77), 0, 0)], renders := 1 }) := by
    simp only [get_icon, hk779, List.lookup_cons_self]
    simp [touchEntries]
  have hbeq78 : ((("warning", 78) : String × Int) == ("warning", 77)) = false := by
    decide
  have h3 : (get_icon { entries := [(("warning", 77), 0, 0)], renders := 1 }
      "warning" (78.0 : ℚ) 0).1 = 1 := by
    simp only [get_icon, hk780, List.lookup_cons, hbeq78]
    rfl
  refine ⟨fun hq => ?_, fun hq hkey => ?_, ?_, ?_⟩
  · have hkey : icon_cache_key s p2 = icon_cache_key s p1 := by
      simp [icon_cache_key, hq]
    cases hl : List.lookup (icon_cache_key s p1) st.entries with
    | some val =>
      obtain ⟨icon, acc⟩ := val
      rw [get_icon_hit hl]
      have hl2 : List.lookup (icon_cache_key s p2)
          (touchEntries st.entries (icon_cache_key s p1) t1) =
          some (icon, t1) := by
        rw [hkey, lookup_touch, hl]
        rfl
      rw [get_icon_hit hl2]
      exact ⟨rfl, rfl, Nat.le_succ st.renders⟩
    | none =>
      rw [get_icon_miss hl]
      have hl2 : List.lookup (icon_cache_key s p2)
          (icon_add_to_cache { st with renders := st.renders + 1 }
            (icon_cache_key s p1) st.renders t1).entries =
          some (st.renders, t1) := by
        rw [hkey]
        exact icon_add_entries_lookup _ _ _ _
      rw [get_icon_hit hl2]
      refine ⟨rfl, rfl, ?_⟩
      show (icon_add_to_cache { st with renders := st.renders + 1 }
        (icon_cache_key s p1) st.renders t1).renders ≤ st.renders + 1
      rw [icon_add_renders]
  · simp only [icon_cache_key, Prod.mk.injEq, true_and] at hkey
    exact hq hkey
  · rw [h1]
    show (get_icon { entries := [(("warning", 77), 0, 0)], renders := 1 }
      "warning" (77.9 : ℚ) 0).1 = 0
    rw [h2]
  · rw [h1]
    show (get_icon (get_icon { entries := [(("warning", 77), 0, 0)], renders := 1 }
      "warning" (77.9 : ℚ) 0).2 "warning" (78.0 : ℚ) 0).1 ≠ 0
    rw [h2]
    show (get_icon { entries := [(("warning", 77), 0, 0)], renders := 1 }
      "warning" (78.0 : ℚ) 0).1 ≠ 0
    rw [h3]
    decide

/-- **C6 witness.** The amended theorem's same-truncation clause
evaluated at `77.4` and `77.9` on the fresh cache: identical instance,
no second render, at most one render in total. -/
theorem c6_icon_cache_granularity_witness :
    (get_icon (get_icon emptyIconCache "warning" (77.4 : ℚ) 0).2
        "warning" (77.9 : ℚ) 0).1 =
      (get_icon emptyIconCache "warning" (77.4 : ℚ) 0).1 ∧
    (get_icon (get_icon emptyIconCache "warning" (77.4 : ℚ) 0).2
        "warning" (77.9 : ℚ) 0).2.renders =
      (get_icon emptyIconCache "warning" (77.4 : ℚ) 0).2.renders ∧
    (get_icon emptyIconCache "warning" (77.4 : ℚ) 0).2.renders ≤ 0 + 1 := by
  have h := c6_icon_cache_granularity emptyIconCache "warning"
    (77.4 : ℚ) (77.9 : ℚ) 0 0
  exact (h.1 (by norm_num [pyInt]))

/-- Reading an index after `List.set`: either the updated slot or an
untouched one. -/
lemma set_lookup {α : Type} {l : List α} {tid : Nat} {thOld : α}
    (hOld : l[tid]? = some thOld) {th' : α} {i : Nat} {th : α}
    (h : (l.set tid th')[i]? = some th) :
    (i = tid ∧ th = th') ∨ (i ≠ tid ∧ l[i]? = some th) := by
  by_cases hij : i = tid
  · subst hij
    have hlt : i < l.length := (List.getElem?_eq_some_iff.mp hOld).1
    rw [List.getElem?_set_self hlt] at h
    exact Or.inl ⟨rfl, (Option.some.inj h).symm⟩
  · rw [List.getElem?_set_ne (fun hc => hij hc.symm)] at h
    exact Or.inr ⟨hij, h⟩

/-- Each scheduler step preserves the single-flight invariant. -/
lemma sessInv_step (st : SessState) (tid : Nat) (hinv : SessInv st) :
    SessInv (sessStep st tid) := by
  cases hth : st.threads[tid]? with
  | none => simpa [sessStep, hth] using hinv
  | some th =>
    cases hpc : th.pc with
    | precheck =>
      cases hsess : st.session with
      | some h =>
        simp only [sessStep, hth, hpc, hsess]
        refine ⟨?_, ?_, ?_, ?_, ?_⟩
        · intro i th2 hi hpc2
          rcases set_lookup hth hi with ⟨rfl, rfl⟩ | ⟨hne, hi'⟩
          · simp at hpc2
          · exact hinv.lockHolder _ _ hi' hpc2
        · intro i th2 hi hpc2
          rcases set_lookup hth hi with ⟨rfl, rfl⟩ | ⟨hne, hi'⟩
          · simp at hpc2
          · have hx := hinv.createNone _ _ hi' hpc2
            rw [hsess] at hx
            exact Option.noConfusion hx
        · rcases hinv.sessCounter with ⟨hs, -⟩ | ⟨hs, hc⟩
          · rw [hsess] at hs
            exact Option.noConfusion hs
          · rw [hsess] at hs
            exact Or.inr ⟨hs, hc⟩
        · intro i th2 hi r hr
          rcases set_lookup hth hi with ⟨rfl, rfl⟩ | ⟨hne, hi'⟩
          · exact hr
          · have hx := hinv.resultSess _ _ hi' r hr
            rw [hsess] at hx
            exact hx
        · intro i th2 hi hpc2
          rcases set_lookup hth hi with ⟨rfl, rfl⟩ | ⟨hne, hi'⟩
          · exact ⟨h, rfl⟩
          · exact hinv.doneResult _ _ hi' hpc2
      | none =>
        simp only [sessStep, hth, hpc, hsess]
        refine ⟨?_, ?_, ?_, ?_, ?_⟩
        · intro i th2 hi hpc2
          rcases set_lookup hth hi with ⟨rfl, rfl⟩ | ⟨hne, hi'⟩
          · simp at hpc2
          · exact hinv.lockHolder _ _ hi' hpc2
        · intro i th2 hi hpc2
          rfl
        · rcases hinv.sessCounter with ⟨-, hc⟩ | ⟨hs, -⟩
          · exact Or.inl ⟨rfl, hc⟩
          · rw [hsess] at hs
            exact Option.noConfusion hs
        · intro i th2 hi r hr
          rcases set_lookup hth hi with ⟨rfl, rfl⟩ | ⟨hne, hi'⟩
          · have hx := hinv.resultSess _ _ hth r hr
            rw [hsess] at hx
            exact hx
          · have hx := hinv.resultSess _ _ hi' r hr
            rw [hsess] at hx
            exact hx
        · intro i th2 hi hpc2
          rcases set_lookup hth hi with ⟨rfl, rfl⟩ | ⟨hne, hi'⟩
          · simp at hpc2
          · exact hinv.doneResult _ _ hi' hpc2
    | acquire =>
      by_cases hlock : st.lock = none
      · simp only [sessStep, hth, hpc]
        rw [if_pos hlock]
        refine ⟨?_, ?_, hinv.sessCounter, ?_, ?_⟩
        · intro i th2 hi hpc2
          rcases set_lookup hth hi with ⟨rfl, rfl⟩ | ⟨hne, hi'⟩
          · rfl
          · exact absurd (hinv.lockHolder _ _ hi' hpc2) (by simp [hlock])
        · intro i th2 hi hpc2
          rcases set_lookup hth hi with ⟨rfl, rfl⟩ | ⟨hne, hi'⟩
          · simp at hpc2
          · exact hinv.createNone _ _ hi' hpc2
        · intro i th2 hi r hr
          rcases set_lookup hth hi with ⟨rfl, rfl⟩ | ⟨hne, hi'⟩
          · exact hinv.resultSess _ _ hth r hr
          · exact hinv.resultSess _ _ hi' r hr
        · intro i th2 hi hpc2
          rcases set_lookup hth hi with ⟨rfl, rfl⟩ | ⟨hne, hi'⟩
          · simp at hpc2
          · exact hinv.doneResult _ _ hi' hpc2
      · simp only [sessStep, hth, hpc]
        rw [if_neg hlock]
        exact hinv
    | check =>
      by_cases hlock : st.lock = some tid
      · cases hsess : st.session with
        | some h =>
          simp only [sessStep, hth, hpc]
          rw [if_pos hlock]
          simp only [hsess]
          refine ⟨?_, ?_, ?_, ?_, ?_⟩
          · intro i th2 hi hpc2
            rcases set_lookup hth hi with ⟨rfl, rfl⟩ | ⟨hne, hi'⟩
            · simp at hpc2
            · have hli := hinv.lockHolder _ _ hi' hpc2
              rw [hlock] at hli
              exact absurd (Option.some.inj hli).symm hne
          · intro i th2 hi hpc2
            rcases set_lookup hth hi with ⟨rfl, rfl⟩ | ⟨hne, hi'⟩
            · simp at hpc2
            · have hx := hinv.createNone _ _ hi' hpc2
              rw [hsess] at hx
              exact Option.noConfusion hx
          · rcases hinv.sessCounter with ⟨hs, -⟩ | ⟨hs, hc⟩
            · rw [hsess] at hs
              exact Option.noConfusion hs
            · rw [hsess] at hs
              exact Or.inr ⟨hs, hc⟩
          · intro i th2 hi r hr
            rcases set_lookup hth hi with ⟨rfl, rfl⟩ | ⟨hne, hi'⟩
            · exact hr
            · have hx := hinv.resultSess _ _ hi' r hr
              rw [hsess] at hx
              exact hx
          · intro i th2 hi hpc2
            rcases set_lookup hth hi with ⟨rfl, rfl⟩ | ⟨hne, hi'⟩
            · exact ⟨h, rfl⟩
            · exact hinv.doneResult _ _ hi' hpc2
        | none =>
          simp only [sessStep, hth, hpc]
          rw [if_pos hlock]
          simp only [hsess]
          refine ⟨?_, ?_, ?_, ?_, ?_⟩
          · intro i th2 hi hpc2
            rcases set_lookup hth hi with ⟨rfl, rfl⟩ | ⟨hne, hi'⟩
            · exact hlock
            · exact hinv.lockHolder _ _ hi' hpc2
          · intro i th2 hi hpc2
            rfl
          · rcases hinv.sessCounter with ⟨-, hc⟩ | ⟨hs, -⟩
            · exact Or.inl ⟨rfl, hc⟩
            · rw [hsess] at hs
              exact Option.noConfusion hs
          · intro i th2 hi r hr
            rcases set_lookup hth hi with ⟨rfl, rfl⟩ | ⟨hne, hi'⟩
            · have hx := hinv.resultSess _ _ hth r hr
              rw [hsess] at hx
              exact hx
            · have hx := hinv.resultSess _ _ hi' r hr
              rw [hsess] at hx
              exact hx
          · intro i th2 hi hpc2
            rcases set_lookup hth hi with ⟨rfl, rfl⟩ | ⟨hne, hi'⟩
            · simp at hpc2
            · exact hinv.doneResult _ _ hi' hpc2
      · simp only [sessStep, hth, hpc]
        rw [if_neg hlock]
        exact hinv
    | create =>
      by_cases hlock : st.lock = some tid
      · have hsess : st.session = none := hinv.createNone tid th hth hpc
        have hcnt : st.counter = 0 := by
          rcases hinv.sessCounter with ⟨-, hc⟩ | ⟨hs, -⟩
          · exact hc
          · rw [hsess] at hs
            exact Option.noConfusion hs
        simp only [sessStep, hth, hpc]
        rw [if_pos hlock]
        refine ⟨?_, ?_, ?_, ?_, ?_⟩
        · intro i th2 hi hpc2
          rcases set_lookup hth hi with ⟨rfl, rfl⟩ | ⟨hne, hi'⟩
          · simp at hpc2
          · have hli := hinv.lockHolder _ _ hi' hpc2
            rw [hlock] at hli
            exact absurd (Option.some.inj hli).symm hne
        · intro i th2 hi hpc2
          rcases set_lookup hth hi with ⟨rfl, rfl⟩ | ⟨hne, hi'⟩
          · simp at hpc2
          · have hli := hinv.lockHolder _ _ hi' (Or.inr hpc2)
            rw [hlock] at hli
            exact absurd (Option.some.inj hli).symm hne
        · refine Or.inr ⟨?_, ?_⟩
          · rw [hcnt]
          · rw [hcnt]
        · intro i th2 hi r hr
          rcases set_lookup hth hi with ⟨rfl, rfl⟩ | ⟨hne, hi'⟩
          · exact hr
          · have hx := hinv.resultSess _ _ hi' r hr
            rw [hsess] at hx
            exact Option.noConfusion hx
        · intro i th2 hi hpc2
          rcases set_lookup hth hi with ⟨rfl, rfl⟩ | ⟨hne, hi'⟩
          · exact ⟨st.counter, rfl⟩
          · exact hinv.doneResult _ _ hi' hpc2
      · simp only [sessStep, hth, hpc]
        rw [if_neg hlock]
        exact hinv
    | done =>
      simp only [sessStep, hth, hpc]
      exact hinv

/-- The invariant holds along any schedule. -/
lemma sessInv_run (st : SessState) (hinv : SessInv st) (sched : List Nat) :
    SessInv (sessRun st sched) := by
  induction sched generalizing st with
  | nil => exact hinv
  | cons t ts ih => exact ih (sessStep st t) (sessInv_step st t hinv)

/-- A step never changes the number of threads. -/
lemma sessStep_length (st : SessState) (tid : Nat) :
    (sessStep st tid).threads.length = st.threads.length := by
  unfold sessStep
  repeat' split
  all_goals simp [List.length_set]

/-- A run never changes the number of threads. -/
lemma sessRun_length (st : SessState) (sched : List Nat) :
    (sessRun st sched).threads.length = st.threads.length := by
  induction sched generalizing st with
  | nil => rfl
  | cons t ts ih =>
    exact (ih (sessStep st t)).trans (sessStep_length st t)

/-- The initial state satisfies the invariant for both programs. -/
lemma sessInv_init (precheck : Bool) (n : Nat) :
    SessInv (sessInit precheck n) := by
  have hth : ∀ (i : Nat) (th : SessThread),
      (sessInit precheck n).threads[i]? = some th →
      th = ({ pc := if precheck then SessPc.precheck else SessPc.acquire,
              result := none } : SessThread) := by
    intro i th hi
    simp only [sessInit] at hi
    rw [List.getElem?_replicate] at hi
    split at hi
    · exact (Option.some.inj hi).symm
    · exact Option.noConfusion hi
  refine ⟨?_, ?_, Or.inl ⟨rfl, rfl⟩, ?_, ?_⟩
  · intro i th hi hpc
    rw [hth i th hi] at hpc
    cases precheck <;> simp at hpc
  · intro i th hi hpc
    rw [hth i th hi] at hpc
    cases precheck <;> simp at hpc
  · intro i th hi r hr
    rw [hth i th hi] at hr
    simp at hr
  · intro i th hi hpc
    rw [hth i th hi] at hpc
    cases precheck <;> simp at hpc

/-- **C8.** Single-flight lazy construction under true parallelism: for
both session programs (`get_sync_session`, whole body locked, and
`get_async_session`, double-checked locking with an unguarded
pre-check), for every thread count `N ≥ 1` and every interleaving after
which all `N` first callers have finished, the session was constructed
exactly once and every caller received that same handle. -/
theorem c8_single_flight (precheck : Bool) (n : Nat) (hn : 0 < n)
    (sched : List Nat)
    (hdone : ∀ th ∈ (sessRun (sessInit precheck n) sched).threads,
      th.pc = SessPc.done) :
    (sessRun (sessInit precheck n) sched).counter = 1 ∧
    ∃ h, ∀ th ∈ (sessRun (sessInit precheck n) sched).threads,
      th.result = some h := by
  have hinv := sessInv_run _ (sessInv_init precheck n) sched
  have hlen : (sessRun (sessInit precheck n) sched).threads.length = n := by
    rw [sessRun_length]
    simp [sessInit]
  have h0lt : 0 < (sessRun (sessInit precheck n) sched).threads.length := by
    rw [hlen]
    exact hn
  obtain ⟨th0, h0⟩ : ∃ th0,
      (sessRun (sessInit precheck n) sched).threads[0]? = some th0 :=
    ⟨_, List.getElem?_eq_getElem h0lt⟩
  have hmem0 : th0 ∈ (sessRun (sessInit precheck n) sched).threads :=
    List.mem_iff_getElem?.mpr ⟨0, h0⟩
  obtain ⟨r0, hr0⟩ := hinv.doneResult 0 th0 h0 (hdone th0 hmem0)
  have hsess0 := hinv.resultSess 0 th0 h0 r0 hr0
  rcases hinv.sessCounter with ⟨hs, -⟩ | ⟨hs, hc⟩
  · rw [hs] at hsess0
    exact Option.noConfusion hsess0
  · refine ⟨hc, 0, ?_⟩
    intro th hmem
    obtain ⟨i, hi⟩ := List.mem_iff_getElem?.mp hmem
    obtain ⟨r, hr⟩ := hinv.doneResult i th hi (hdone th hmem)
    have hsr := hinv.resultSess i th hi r hr
    rw [hs] at hsr
    rw [hr, ← Option.some.inj hsr]

/-- **C8 witness.** Three concurrent first callers of the double-checked
program under a round-robin schedule that completes them all: the
construction counter ends at `1`. -/
theorem c8_single_flight_witness :
    (sessRun (sessInit true 3)
      [0, 1, 2, 0, 1, 2, 0, 1, 2, 0, 1, 2, 0, 1, 2, 0, 1, 2]).counter = 1 :=
  (c8_single_flight true 3 (by decide)
    [0, 1, 2, 0, 1, 2, 0, 1, 2, 0, 1, 2, 0, 1, 2, 0, 1, 2] (by decide)).1
